import Mathlib

/-!
Verification of the ElysionEngine entity-component core.

Shallow embedding of the C++ sources:
  - ECSDefines.hpp  : component/group id domains, the 32-wide bitsets, and the
    process-wide monotonic type-id counter (Internal::get_unique_component_id).
  - Entity.hpp / Entity.cpp : Entity with alive flag, attach-ordered component
    storage, component bitset/array, group bitset, and the group operations.
  - EntityManager.cpp : owned entity store, per-group reference lists,
    update/draw dispatch, and the refresh() compaction pass.

Modelling conventions:
  - An Entity* (a pointer identifying an owned entity) is modelled as a
    natural-number id; the manager's owned store is an insertion-ordered
    association list from id to entity state.
  - std::bitset<32> is modelled as a function Nat → Bool together with
    width-checked accessors returning Option: operator[] with an index ≥ 32 is
    undefined behaviour in C++, which the total embedding surfaces as none.
    Likewise std::array<..., 32> indexing.
  - A Component instance is a pair (type id, instance id); the instance id
    models the identity of the heap object created by add_component.
  - update/draw are virtual calls on opaque components, so they are embedded
    as trace producers: the list of (entity id, component, dt) dispatch events
    emitted by the loops, in order.
  - assert(...) failures (contract violations) are surfaced as none.
-/

/-- ECSDefines.hpp: constexpr std::size_t max_components = 32. -/
def max_components : Nat := 32

/-- ECSDefines.hpp: constexpr std::size_t max_groups = 32. -/
def max_groups : Nat := 32

/-- ECSDefines.hpp, Internal::get_unique_component_id: a static counter
`last_id` starting at 0; each call returns the current value and
post-increments.  Embedded as a state transformer on the counter.  Note the
source performs no bound check against max_components. -/
def get_unique_component_id (last_id : Nat) : Nat × Nat :=
  (last_id, last_id + 1)

/-- Running the registry: the ids handed out by `n` successive first-use
registrations of distinct component types, starting from counter state
`last_id`, together with the final counter state.  This is the sequence of
values produced by get_component_type_id for the 1st, 2nd, ... distinct T. -/
def run_registry : Nat → Nat → List Nat × Nat
  | 0, last_id => ([], last_id)
  | n + 1, last_id =>
    let step := get_unique_component_id last_id
    let rest := run_registry n step.2
    (step.1 :: rest.1, rest.2)

/-- Checked read of a 32-wide std::bitset / std::array cell: operator[] with an
out-of-range index is undefined behaviour, surfaced as none. -/
def bitset_get (bs : Nat → Bool) (i : Nat) (w : Nat) : Option Bool :=
  if i < w then some (bs i) else none

/-- Checked write of a 32-wide std::bitset cell. -/
def bitset_set (bs : Nat → Bool) (i : Nat) (v : Bool) (w : Nat) :
    Option (Nat → Bool) :=
  if i < w then some (fun j => if j = i then v else bs j) else none

/-- A type-erased component instance as stored in Entity::m_components:
first projection the runtime type id, second the instance identity. -/
abbrev Cmp := Nat × Nat

/-- Entity.hpp: the Entity state.
  - alive             : bool m_alive (default true)
  - components        : std::vector of owned components, attach order
  - component_array   : ComponentArray (Component* per type id; none = nullptr)
  - component_bitset  : ComponentBitset
  - group_bitset      : GroupBitset -/
structure Entity where
  alive : Bool
  components : List Cmp
  component_array : Nat → Option Nat
  component_bitset : Nat → Bool
  group_bitset : Nat → Bool

/-- A freshly constructed Entity: alive, with no components and empty
bitsets (Entity.hpp default member initialisers). -/
def Entity.new : Entity :=
  { alive := true
    components := []
    component_array := fun _ => none
    component_bitset := fun _ => false
    group_bitset := fun _ => false }

/-- EntityManager.hpp: the manager state.
  - entities        : std::vector of std::unique_ptr of Entity, insertion
    order; each owned entity is keyed by its pointer identity (a Nat id)
  - groupedEntities : std::array of std::vector of Entity pointers, one list
    per group id below max_groups (indices ≥ 32 are never touched by the
    source; they are carried so out-of-range access can be discussed). -/
structure EntityManager where
  entities : List (Nat × Entity)
  groupedEntities : Nat → List Nat

/-- Dereferencing an Entity* owned by the manager: the first owned entry
carrying that pointer identity (in real states ids are unique). -/
def findEntity : List (Nat × Entity) → Nat → Option Entity
  | [], _ => none
  | p :: t, eid => if p.1 = eid then some p.2 else findEntity t eid

/-- Mutating an owned entity in place through its pointer: rewrite the first
entry with the given id. -/
def updateEntities : List (Nat × Entity) → Nat → (Entity → Entity) →
    List (Nat × Entity)
  | [], _, _ => []
  | p :: t, eid, f =>
    if p.1 = eid then (p.1, f p.2) :: t else p :: updateEntities t eid f

/-- Entity::is_alive. -/
def is_alive (e : Entity) : Bool := e.alive

/-- Entity::destroy: m_alive = false (nothing else is touched). -/
def Entity.destroy (e : Entity) : Entity := { e with alive := false }

/-- Entity::destroy invoked through the manager on an owned entity:
dereferencing a pointer to no owned entity is undefined, hence none. -/
def destroy (m : EntityManager) (eid : Nat) : Option EntityManager :=
  match findEntity m.entities eid with
  | none => none
  | some _ => some { m with entities := updateEntities m.entities eid Entity.destroy }

/-- Entity::has_group: m_group_bitset[group] (checked: index ≥ 32 is UB). -/
def has_group (e : Entity) (g : Nat) : Option Bool :=
  bitset_get e.group_bitset g max_groups

/-- EntityManager::add_to_group: m_groupedEntities[group].emplace_back(entity).
Appends, never deduplicates; array indexing with group ≥ 32 is UB. -/
def add_to_group (m : EntityManager) (eid : Nat) (g : Nat) :
    Option EntityManager :=
  if g < max_groups then
    some { m with
      groupedEntities := fun j =>
        if j = g then m.groupedEntities g ++ [eid] else m.groupedEntities j }
  else none

/-- EntityManager::get_entities_by_group: returns the live backing list for
the group (array indexing with group ≥ 32 is UB). -/
def get_entities_by_group (m : EntityManager) (g : Nat) :
    Option (List Nat) :=
  if g < max_groups then some (m.groupedEntities g) else none

/-- Entity::add_group on an owned entity: m_group_bitset[group] = true, then
m_manager.add_to_group(this, group).  Both steps are UB for group ≥ 32. -/
def add_group (m : EntityManager) (eid : Nat) (g : Nat) :
    Option EntityManager :=
  match findEntity m.entities eid with
  | none => none
  | some e =>
    match bitset_set e.group_bitset g true max_groups with
    | none => none
    | some bs =>
      add_to_group
        { m with entities :=
            updateEntities m.entities eid (fun e0 => { e0 with group_bitset := bs }) }
        eid g

/-- Entity::remove_group on an owned entity: m_group_bitset[group] = false.
No manager list is touched.  UB for group ≥ 32. -/
def remove_group (m : EntityManager) (eid : Nat) (g : Nat) :
    Option EntityManager :=
  match findEntity m.entities eid with
  | none => none
  | some e =>
    match bitset_set e.group_bitset g false max_groups with
    | none => none
    | some bs =>
      some { m with entities :=
        updateEntities m.entities eid (fun e0 => { e0 with group_bitset := bs }) }

/-- Entity::has_component for a type with id tid: m_component_bitset[tid]
(checked: a type id ≥ 32 indexes the bitset out of range). -/
def has_component (e : Entity) (tid : Nat) : Option Bool :=
  bitset_get e.component_bitset tid max_components

/-- Entity::add_component for a type with id `tid`, creating the instance
`cinst`: asserts !has_component (assert failure surfaced as none), pushes the
owned component onto m_components, stores the pointer in m_component_array
and sets the bitset bit.  A type id ≥ 32 indexes out of range (none). -/
def add_component (e : Entity) (tid : Nat) (cinst : Nat) : Option Entity :=
  if tid < max_components then
    if e.component_bitset tid then none
    else
      some { e with
        components := e.components ++ [(tid, cinst)]
        component_array := fun j =>
          if j = tid then some cinst else e.component_array j
        component_bitset := fun j =>
          if j = tid then true else e.component_bitset j }
  else none

/-- Entity::get_component: asserts has_component (failure = none) and returns
the instance stored in m_component_array at the type id. -/
def get_component (e : Entity) (tid : Nat) : Option Nat :=
  if tid < max_components then
    if e.component_bitset tid then e.component_array tid else none
  else none

/-- Entity::update(dt): for each owned component c in attach order, c->update(dt).
Components are opaque, so the loop is embedded as the trace of dispatch
events it emits, in order. -/
def Entity.update (eid : Nat) (e : Entity) (dt : ℚ) : List (Nat × Cmp × ℚ) :=
  e.components.foldl (fun acc c => acc ++ [(eid, c, dt)]) []

/-- Entity::draw(): for each owned component c in attach order, c->draw(). -/
def Entity.draw (eid : Nat) (e : Entity) : List (Nat × Cmp) :=
  e.components.foldl (fun acc c => acc ++ [(eid, c)]) []

/-- EntityManager::update(dt): for each owned entity e in storage order,
e->update(dt); there is no aliveness test in the loop. -/
def EntityManager.update (m : EntityManager) (dt : ℚ) : List (Nat × Cmp × ℚ) :=
  m.entities.foldl (fun acc p => acc ++ Entity.update p.1 p.2 dt) []

/-- EntityManager::draw(): for each owned entity e in storage order, e->draw(). -/
def EntityManager.draw (m : EntityManager) : List (Nat × Cmp) :=
  m.entities.foldl (fun acc p => acc ++ Entity.draw p.1 p.2) []

/-- The erase(remove_if(...), end) idiom: drop every element satisfying the
removal predicate, keeping the remaining elements in their original relative
order (std::remove_if is stable). -/
def remove_erase (p : α → Bool) (v : List α) : List α :=
  v.foldl (fun acc x => if p x then acc else acc ++ [x]) []

/-- The removal predicate of refresh()'s group loop at group i:
!mEntity->is_alive() || !mEntity->has_group(i), reading the entity through its
pointer.  A dangling pointer (entity not owned) is undefined behaviour; the
embedding removes such an entry, which is invisible on states reachable
through the API (group entries always point into the owned store). -/
def group_remove_pred (ents : List (Nat × Entity)) (i : Nat) (eid : Nat) :
    Bool :=
  match findEntity ents eid with
  | some e => !is_alive e || !e.group_bitset i
  | none => true

/-- The keep form of the group filter: the entry survives refresh() exactly
when its entity is alive and carries the group bit. -/
def group_keep (ents : List (Nat × Entity)) (i : Nat) (eid : Nat) : Bool :=
  match findEntity ents eid with
  | some e => is_alive e && e.group_bitset i
  | none => false

/-- Phase 1 of EntityManager::refresh: for (i = 0; i < max_groups; ++i)
erase-remove from m_groupedEntities[i] every dead or no-longer-tagged entry.
The loop is embedded as a fold over the index range. -/
def refresh_groups (ents : List (Nat × Entity)) (gs : Nat → List Nat) :
    Nat → List Nat :=
  (List.range max_groups).foldl
    (fun acc i =>
      fun j => if j = i then remove_erase (group_remove_pred ents i) (acc i)
               else acc j)
    gs

/-- EntityManager::refresh: phase 1 filters each group list (reading the
owned store, which phase 1 does not modify), phase 2 erase-removes every
entity whose alive flag is false from the owned store. -/
def refresh (m : EntityManager) : EntityManager :=
  { entities := remove_erase (fun p => !is_alive p.2) m.entities
    groupedEntities := refresh_groups m.entities m.groupedEntities }

/-- EntityManager::add_entity: allocate a fresh entity (pointer identity
`eid`), append it to the owned store, return the manager and the handle. -/
def add_entity (m : EntityManager) (eid : Nat) : EntityManager :=
  { m with entities := m.entities ++ [(eid, Entity.new)] }

/-- A manager with every owned entity marked dead; used to state that
update/draw dispatch does not consult the alive flag. -/
def killAll (m : EntityManager) : EntityManager :=
  { m with entities := m.entities.map (fun p => (p.1, { p.2 with alive := false })) }

/-! ### Concrete states used to instantiate the theorems -/

/-- A live entity tagged with group 5 only. -/
def e_alive5 : Entity :=
  { alive := true
    components := []
    component_array := fun _ => none
    component_bitset := fun _ => false
    group_bitset := fun j => j == 5 }

/-- A destroyed entity tagged with group 5 only. -/
def e_dead5 : Entity := { e_alive5 with alive := false }

/-- A demonstration manager: entity 0 alive and entity 1 destroyed, both
still listed under group 5 (the state just before a compaction pass). -/
def m_demo : EntityManager :=
  { entities := [(0, e_alive5), (1, e_dead5)]
    groupedEntities := fun j => if j = 5 then [0, 1] else [] }

/-! ### Helper lemmas about the embedding -/

theorem foldl_append_eq (g : α → List β) (l : List α) (acc : List β) :
    l.foldl (fun a x => a ++ g x) acc = acc ++ l.flatMap g := by
  induction l generalizing acc with
  | nil => simp
  | cons x t ih => simp [List.foldl_cons, ih, List.append_assoc]

theorem foldl_append_singleton_eq (g : α → β) (l : List α) (acc : List β) :
    l.foldl (fun a x => a ++ [g x]) acc = acc ++ l.map g := by
  induction l generalizing acc with
  | nil => simp
  | cons x t ih => simp [List.foldl_cons, ih]

theorem remove_erase_eq_filter (p : α → Bool) (v : List α) :
    remove_erase p v = v.filter (fun x => !p x) := by
  unfold remove_erase
  have h : ∀ (l : List α) (acc : List α),
      l.foldl (fun a x => if p x then a else a ++ [x]) acc =
        acc ++ l.filter (fun x => !p x) := by
    intro l
    induction l with
    | nil => simp
    | cons x t ih =>
      intro acc
      by_cases hx : p x <;> simp [List.foldl_cons, hx, ih, List.filter_cons]
  simpa using h v []

theorem refresh_groups_apply (ents : List (Nat × Entity))
    (gs : Nat → List Nat) (j : Nat) :
    refresh_groups ents gs j =
      if j < max_groups then
        remove_erase (group_remove_pred ents j) (gs j)
      else gs j := by
  unfold refresh_groups
  have key : ∀ (idxs : List Nat), idxs.Nodup → ∀ (gs : Nat → List Nat) (j : Nat),
      (idxs.foldl
        (fun acc i =>
          fun j2 => if j2 = i then remove_erase (group_remove_pred ents i) (acc i)
                   else acc j2)
        gs) j =
      if j ∈ idxs then remove_erase (group_remove_pred ents j) (gs j) else gs j := by
    intro idxs
    induction idxs with
    | nil => intro _ gs j; simp
    | cons i rest ih =>
      intro hnd gs j
      have hrest : rest.Nodup := (List.nodup_cons.mp hnd).2
      have hi : i ∉ rest := (List.nodup_cons.mp hnd).1
      rw [List.foldl_cons, ih hrest]
      by_cases hjr : j ∈ rest
      · have hji : j ≠ i := fun h => hi (h ▸ hjr)
        simp [hjr, hji, List.mem_cons]
      · by_cases hji : j = i
        · subst hji; simp [hjr]
        · simp [hjr, hji, List.mem_cons]
  rw [key (List.range max_groups) (List.nodup_range max_groups) gs j]
  simp [List.mem_range]

theorem group_keep_eq_not_remove (ents : List (Nat × Entity)) (i eid : Nat) :
    group_keep ents i eid = !group_remove_pred ents i eid := by
  unfold group_keep group_remove_pred
  cases findEntity ents eid with
  | none => rfl
  | some e => simp

theorem refresh_entities_eq (m : EntityManager) :
    (refresh m).entities = m.entities.filter (fun p => is_alive p.2) := by
  show remove_erase (fun p => !is_alive p.2) m.entities = _
  rw [remove_erase_eq_filter]
  simp

theorem refresh_grouped_eq (m : EntityManager) (g : Nat) (hg : g < max_groups) :
    (refresh m).groupedEntities g =
      (m.groupedEntities g).filter (group_keep m.entities g) := by
  show refresh_groups m.entities m.groupedEntities g = _
  rw [refresh_groups_apply, if_pos hg, remove_erase_eq_filter]
  apply List.filter_congr
  intro eid _
  rw [group_keep_eq_not_remove]

theorem refresh_grouped_eq_of_ge (m : EntityManager) (g : Nat)
    (hg : max_groups ≤ g) :
    (refresh m).groupedEntities g = m.groupedEntities g := by
  show refresh_groups m.entities m.groupedEntities g = _
  rw [refresh_groups_apply, if_neg (Nat.not_lt.mpr hg)]

theorem findEntity_filter_alive (ents : List (Nat × Entity)) (eid : Nat)
    (e : Entity) (hfind : findEntity ents eid = some e)
    (halive : is_alive e = true) :
    findEntity (ents.filter (fun p => is_alive p.2)) eid = some e := by
  induction ents with
  | nil => simp [findEntity] at hfind
  | cons p t ih =>
    by_cases hid : p.1 = eid
    · have he : p.2 = e := by
        simpa [findEntity, hid] using hfind
      subst he
      rw [List.filter_cons, if_pos (by simpa using halive)]
      simp [findEntity, hid]
    · have hfind2 : findEntity t eid = some e := by
        simpa [findEntity, hid] using hfind
      rw [List.filter_cons]
      by_cases hal : is_alive p.2
      · rw [if_pos (by simpa using hal)]
        simp [findEntity, hid, ih hfind2]
      · rw [if_neg (by simpa using hal)]
        exact ih hfind2

theorem findEntity_updateEntities (ents : List (Nat × Entity)) (eid : Nat)
    (f : Entity → Entity) (e : Entity) (hfind : findEntity ents eid = some e) :
    findEntity (updateEntities ents eid f) eid = some (f e) := by
  induction ents with
  | nil => simp [findEntity] at hfind
  | cons p t ih =>
    by_cases hid : p.1 = eid
    · have he : p.2 = e := by simpa [findEntity, hid] using hfind
      subst he
      simp [updateEntities, findEntity, hid]
    · have hfind2 : findEntity t eid = some e := by
        simpa [findEntity, hid] using hfind
      simp [updateEntities, findEntity, hid, ih hfind2]

theorem findEntity_updateEntities_ne (ents : List (Nat × Entity))
    (eid : Nat) (f : Entity → Entity) (eid2 : Nat) (hne : eid2 ≠ eid) :
    findEntity (updateEntities ents eid f) eid2 = findEntity ents eid2 := by
  induction ents with
  | nil => simp [updateEntities]
  | cons p t ih =>
    by_cases hid : p.1 = eid
    · simp [updateEntities, findEntity, hid, Ne.symm hne]
    · by_cases hid2 : p.1 = eid2
      · simp [updateEntities, findEntity, hid, hid2, hne]
      · simp [updateEntities, findEntity, hid, hid2, ih]

theorem updateEntities_updateEntities (ents : List (Nat × Entity)) (eid : Nat)
    (f : Entity → Entity) (hf : ∀ x, f (f x) = f x) :
    updateEntities (updateEntities ents eid f) eid f =
      updateEntities ents eid f := by
  induction ents with
  | nil => simp [updateEntities]
  | cons p t ih =>
    by_cases hid : p.1 = eid
    · simp [updateEntities, hid, hf]
    · simp [updateEntities, hid, ih]

theorem mem_filter_keep (l : List Nat) (p : Nat → Bool) (x : Nat)
    (hx : x ∈ l.filter p) : p x = true :=
  (List.mem_filter.mp hx).2

theorem refresh_group_mem_spec (m : EntityManager) (g : Nat)
    (hg : g < max_groups) (eid : Nat)
    (hmem : eid ∈ (refresh m).groupedEntities g) :
    ∃ e, findEntity (refresh m).entities eid = some e ∧
      is_alive e = true ∧ e.group_bitset g = true := by
  rw [refresh_grouped_eq m g hg] at hmem
  have hkeep : group_keep m.entities g eid = true := mem_filter_keep _ _ _ hmem
  unfold group_keep at hkeep
  cases hfind : findEntity m.entities eid with
  | none => rw [hfind] at hkeep; simp at hkeep
  | some e =>
    rw [hfind] at hkeep
    have hkeep2 : (is_alive e && e.group_bitset g) = true := hkeep
    rw [Bool.and_eq_true] at hkeep2
    refine ⟨e, ?_, hkeep2.1, hkeep2.2⟩
    rw [refresh_entities_eq]
    exact findEntity_filter_alive m.entities eid e hfind hkeep2.1

/-! ### The claims -/

/-- C1: after refresh() no dead entity remains in the owned store or in any of
the 32 group lists: every owned entity is alive, and every entry remaining in
group g's list refers to an entity that is alive and still carries group
bit g. -/
theorem C1_refresh_invariant (m : EntityManager) :
    (∀ p ∈ (refresh m).entities, is_alive p.2 = true) ∧
    ∀ g : Nat, g < max_groups → ∀ eid ∈ (refresh m).groupedEntities g,
      ∃ e, findEntity (refresh m).entities eid = some e ∧
        is_alive e = true ∧ e.group_bitset g = true := by
  constructor
  · intro p hp
    rw [refresh_entities_eq] at hp
    exact (List.mem_filter.mp hp).2
  · intro g hg eid hmem
    exact refresh_group_mem_spec m g hg eid hmem

/-- Witness for C1 on the demonstration state: after refresh, the surviving
entry 0 of group 5 points at a live, still-tagged entity. -/
theorem C1_refresh_invariant_witness :
    ∃ e, findEntity (refresh m_demo).entities 0 = some e ∧
      is_alive e = true ∧ e.group_bitset 5 = true :=
  (C1_refresh_invariant m_demo).2 5 (by decide) 0 (by decide)

/-- C7: refresh() is idempotent on collection sizes: a second refresh with no
intervening mutation changes neither the owned store's size nor any group
list's size. -/
theorem C7_refresh_idempotent_sizes (m : EntityManager) :
    (refresh (refresh m)).entities.length = (refresh m).entities.length ∧
    ∀ g : Nat, ((refresh (refresh m)).groupedEntities g).length =
      ((refresh m).groupedEntities g).length := by
  constructor
  · rw [refresh_entities_eq (refresh m)]
    congr 1
    rw [List.filter_eq_self]
    intro p hp
    rw [refresh_entities_eq] at hp
    exact (List.mem_filter.mp hp).2
  · intro g
    by_cases hg : g < max_groups
    · rw [refresh_grouped_eq (refresh m) g hg]
      congr 1
      rw [List.filter_eq_self]
      intro eid hmem
      obtain ⟨e, hfind, halive, hbit⟩ := refresh_group_mem_spec m g hg eid hmem
      unfold group_keep
      rw [hfind]
      show (is_alive e && e.group_bitset g) = true
      rw [halive, hbit]
      rfl
    · rw [refresh_grouped_eq_of_ge (refresh m) g (Nat.not_lt.mp hg)]

/-- C10: refresh() is exactly a stable filter: each group list keeps precisely
its prior entries (duplicates included) whose entity is alive and carries the
group bit, in their original relative order, and the owned store keeps its
surviving entities in insertion order. -/
theorem C10_refresh_stable_filter (m : EntityManager) :
    (refresh m).entities = m.entities.filter (fun p => is_alive p.2) ∧
    ∀ g : Nat, g < max_groups →
      (refresh m).groupedEntities g =
        (m.groupedEntities g).filter (group_keep m.entities g) :=
  ⟨refresh_entities_eq m, fun g hg => refresh_grouped_eq m g hg⟩

/-- Witness for C10 on the demonstration state. -/
theorem C10_refresh_stable_filter_witness :
    (refresh m_demo).entities = m_demo.entities.filter (fun p => is_alive p.2) ∧
    (refresh m_demo).groupedEntities 5 =
      (m_demo.groupedEntities 5).filter (group_keep m_demo.entities 5) :=
  ⟨(C10_refresh_stable_filter m_demo).1,
    (C10_refresh_stable_filter m_demo).2 5 (by decide)⟩

/-- C8: EntityManager::update(dt) dispatches update(dt) to every owned entity
exactly once, in storage order, ignoring the alive flag (dead-but-uncompacted
entities included), and each entity forwards to its owned components in
attach order; EntityManager::draw() behaves identically with draw(). -/
theorem C8_update_draw_dispatch (m : EntityManager) (dt : ℚ) :
    EntityManager.update m dt =
      m.entities.flatMap (fun p => p.2.components.map (fun c => (p.1, c, dt))) ∧
    EntityManager.draw m =
      m.entities.flatMap (fun p => p.2.components.map (fun c => (p.1, c))) ∧
    EntityManager.update (killAll m) dt = EntityManager.update m dt ∧
    EntityManager.draw (killAll m) = EntityManager.draw m := by
  have hent : ∀ (eid : Nat) (e : Entity),
      Entity.update eid e dt = e.components.map (fun c => (eid, c, dt)) := by
    intro eid e
    unfold Entity.update
    simpa using foldl_append_singleton_eq (fun c => (eid, c, dt)) e.components []
  have hdrw : ∀ (eid : Nat) (e : Entity),
      Entity.draw eid e = e.components.map (fun c => (eid, c)) := by
    intro eid e
    unfold Entity.draw
    simpa using foldl_append_singleton_eq (fun c => (eid, c)) e.components []
  have hupm : EntityManager.update m dt =
      m.entities.flatMap (fun p => p.2.components.map (fun c => (p.1, c, dt))) := by
    unfold EntityManager.update
    rw [foldl_append_eq (fun p => Entity.update p.1 p.2 dt) m.entities []]
    simp only [List.nil_append]
    apply List.flatMap_congr
    intro p _
    exact hent p.1 p.2
  have hdrm : EntityManager.draw m =
      m.entities.flatMap (fun p => p.2.components.map (fun c => (p.1, c))) := by
    unfold EntityManager.draw
    rw [foldl_append_eq (fun p => Entity.draw p.1 p.2) m.entities []]
    simp only [List.nil_append]
    apply List.flatMap_congr
    intro p _
    exact hdrw p.1 p.2
  have hupk : EntityManager.update (killAll m) dt =
      (killAll m).entities.flatMap
        (fun p => p.2.components.map (fun c => (p.1, c, dt))) := by
    unfold EntityManager.update
    rw [foldl_append_eq (fun p => Entity.update p.1 p.2 dt) (killAll m).entities []]
    simp only [List.nil_append]
    apply List.flatMap_congr
    intro p _
    exact hent p.1 p.2
  have hdrk : EntityManager.draw (killAll m) =
      (killAll m).entities.flatMap
        (fun p => p.2.components.map (fun c => (p.1, c))) := by
    unfold EntityManager.draw
    rw [foldl_append_eq (fun p => Entity.draw p.1 p.2) (killAll m).entities []]
    simp only [List.nil_append]
    apply List.flatMap_congr
    intro p _
    exact hdrw p.1 p.2
  refine ⟨hupm, hdrm, ?_, ?_⟩
  · rw [hupk, hupm]
    unfold killAll
    simp only []
    induction m.entities with
    | nil => simp
    | cons p t ih => simp only [List.map_cons, List.flatMap_cons, ih]
  · rw [hdrk, hdrm]
    unfold killAll
    simp only []
    induction m.entities with
    | nil => simp
    | cons p t ih => simp only [List.map_cons, List.flatMap_cons, ih]

/-- C2 (code divergence): the type registry assigns ids monotonically from 0,
one per distinct type, but Internal::get_unique_component_id performs no
check at all: the 33rd distinct registration silently yields id 32 =
max_components, outside the 32-wide bitset/array domain, with no error
branch (the counter step is total and unconditional). -/
theorem C2_registry_overflow_unchecked :
    (run_registry 33 0).1 = List.range 33 ∧
    (∀ last_id : Nat, (get_unique_component_id last_id).1 = last_id ∧
      (get_unique_component_id last_id).2 = last_id + 1) ∧
    (run_registry 33 0).1.getLast? = some max_components ∧
    ((run_registry 33 0).1.all (fun i => decide (i < max_components))) = false := by
  refine ⟨by decide, fun last_id => ⟨rfl, rfl⟩, by decide, by decide⟩

/-- C3: every group operation given an id g ≥ 32 hits the out-of-range branch
of the 32-wide bitset / group-array indexing: in the total embedding each
operation returns none (the surfaced error branch), never a silent success. -/
theorem C3_group_bound_error_branch (m : EntityManager) (eid : Nat)
    (e : Entity) (g : Nat) (hg : max_groups ≤ g) :
    add_group m eid g = none ∧
    remove_group m eid g = none ∧
    has_group e g = none ∧
    add_to_group m eid g = none ∧
    get_entities_by_group m g = none := by
  have hnot : ¬ g < max_groups := Nat.not_lt.mpr hg
  refine ⟨?_, ?_, ?_, ?_, ?_⟩
  · unfold add_group
    cases findEntity m.entities eid with
    | none => rfl
    | some e0 => simp [bitset_set, hnot]
  · unfold remove_group
    cases findEntity m.entities eid with
    | none => rfl
    | some e0 => simp [bitset_set, hnot]
  · simp [has_group, bitset_get, hnot]
  · simp [add_to_group, hnot]
  · simp [get_entities_by_group, hnot]

/-- Witness for C3 at group id 32 on the demonstration state. -/
theorem C3_group_bound_error_branch_witness :
    max_groups ≤ 32 ∧
    (add_group m_demo 0 32 = none ∧
     remove_group m_demo 0 32 = none ∧
     has_group e_alive5 32 = none ∧
     add_to_group m_demo 0 32 = none ∧
     get_entities_by_group m_demo 32 = none) :=
  ⟨by decide, C3_group_bound_error_branch m_demo 0 e_alive5 32 (by decide)⟩

/-- C5: destroy() immediately flips the alive flag, is idempotent (the second
call returns the identical state), and changes nothing else: the destroyed
entity keeps its components, bitsets and groups, every manager group list is
untouched, and every other owned entity is untouched. -/
theorem C5_destroy_semantics (m : EntityManager) (eid : Nat) (e : Entity)
    (hfind : findEntity m.entities eid = some e) :
    ∃ m1, destroy m eid = some m1 ∧
      findEntity m1.entities eid = some { e with alive := false } ∧
      is_alive { e with alive := false } = false ∧
      destroy m1 eid = some m1 ∧
      (∀ j, m1.groupedEntities j = m.groupedEntities j) ∧
      (∀ eid2, eid2 ≠ eid →
        findEntity m1.entities eid2 = findEntity m.entities eid2) := by
  have hstep : destroy m eid =
      some { m with entities := updateEntities m.entities eid Entity.destroy } := by
    unfold destroy
    rw [hfind]
  refine ⟨_, hstep, ?_, rfl, ?_, fun j => rfl, ?_⟩
  · exact findEntity_updateEntities m.entities eid Entity.destroy e hfind
  · have hfind1 : findEntity (updateEntities m.entities eid Entity.destroy) eid =
        some (Entity.destroy e) :=
      findEntity_updateEntities m.entities eid Entity.destroy e hfind
    unfold destroy
    simp only [hfind1]
    congr 1
    congr 1
    exact updateEntities_updateEntities m.entities eid Entity.destroy
      (fun x => rfl)
  · intro eid2 hne
    exact findEntity_updateEntities_ne m.entities eid Entity.destroy eid2 hne

/-- Witness for C5: destroying the live entity 0 of the demonstration state. -/
theorem C5_destroy_semantics_witness :
    ∃ m1, destroy m_demo 0 = some m1 ∧
      findEntity m1.entities 0 = some { e_alive5 with alive := false } ∧
      is_alive { e_alive5 with alive := false } = false ∧
      destroy m1 0 = some m1 ∧
      (∀ j, m1.groupedEntities j = m_demo.groupedEntities j) ∧
      (∀ eid2, eid2 ≠ 0 →
        findEntity m1.entities eid2 = findEntity m_demo.entities eid2) :=
  C5_destroy_semantics m_demo 0 e_alive5 (by rfl)

/-- C6: remove_group(g) clears exactly bit g of the entity's group bitset
(all other fields and every manager group list untouched at that moment), and
the next refresh() removes the entity's entries from group g's list because
the compaction filter re-reads has_group(g) — even while the entity is alive. -/
theorem C6_remove_group_deferred (m : EntityManager) (eid : Nat) (e : Entity)
    (g : Nat) (hg : g < max_groups) (hfind : findEntity m.entities eid = some e) :
    ∃ m1, remove_group m eid g = some m1 ∧
      findEntity m1.entities eid =
        some { e with group_bitset := fun j => if j = g then false else e.group_bitset j } ∧
      (∀ j, m1.groupedEntities j = m.groupedEntities j) ∧
      (∀ eid2, eid2 ≠ eid →
        findEntity m1.entities eid2 = findEntity m.entities eid2) ∧
      eid ∉ (refresh m1).groupedEntities g := by
  have hbs : bitset_set e.group_bitset g false max_groups =
      some (fun j => if j = g then false else e.group_bitset j) := by
    unfold bitset_set
    rw [if_pos hg]
  refine ⟨{ m with entities := updateEntities m.entities eid (fun e0 => { e0 with group_bitset := fun j => if j = g then false else e.group_bitset j }) }, ?_, ?_, fun j => rfl, ?_, ?_⟩
  · simp only [remove_group, hfind, hbs]
  · exact findEntity_updateEntities m.entities eid _ e hfind
  · intro eid2 hne
    exact findEntity_updateEntities_ne m.entities eid _ eid2 hne
  · intro hmem
    rw [refresh_grouped_eq _ g hg] at hmem
    have hkeep := mem_filter_keep _ _ _ hmem
    unfold group_keep at hkeep
    rw [findEntity_updateEntities m.entities eid _ e hfind] at hkeep
    have hkeep2 : (is_alive { e with group_bitset :=
        fun j => if j = g then false else e.group_bitset j } &&
        (if g = g then false else e.group_bitset g)) = true := hkeep
    simp at hkeep2

/-- Witness for C6: removing group 5 from the live entity 0. -/
theorem C6_remove_group_deferred_witness :
    ∃ m1, remove_group m_demo 0 5 = some m1 ∧
      findEntity m1.entities 0 =
        some { e_alive5 with group_bitset :=
          fun j => if j = 5 then false else e_alive5.group_bitset j } ∧
      (∀ j, m1.groupedEntities j = m_demo.groupedEntities j) ∧
      (∀ eid2, eid2 ≠ 0 →
        findEntity m1.entities eid2 = findEntity m_demo.entities eid2) ∧
      0 ∉ (refresh m1).groupedEntities 5 :=
  C6_remove_group_deferred m_demo 0 e_alive5 5 (by decide) (by rfl)

theorem add_group_spec (m : EntityManager) (eid : Nat) (e : Entity) (g : Nat)
    (hg : g < max_groups) (hfind : findEntity m.entities eid = some e) :
    add_group m eid g = some
      { entities := updateEntities m.entities eid (fun e0 => { e0 with group_bitset := fun j => if j = g then true else e.group_bitset j })
        groupedEntities := fun j => if j = g then m.groupedEntities g ++ [eid] else m.groupedEntities j } := by
  have hbs : bitset_set e.group_bitset g true max_groups =
      some (fun j => if j = g then true else e.group_bitset j) := by
    unfold bitset_set
    rw [if_pos hg]
  simp only [add_group, hfind, hbs, add_to_group, if_pos hg]

/-- C4: after add_group(g) the bit is set and the entity immediately appears
in get_entities_by_group(g) with no refresh; a second add_group(g) before the
next refresh leaves the bit set but appends a duplicate entry to group g's
list — the manager never deduplicates. -/
theorem C4_add_group_immediate_duplicate (m : EntityManager) (eid : Nat)
    (e : Entity) (g : Nat) (hg : g < max_groups)
    (hfind : findEntity m.entities eid = some e) :
    ∃ m1, add_group m eid g = some m1 ∧
      (∃ e1, findEntity m1.entities eid = some e1 ∧ has_group e1 g = some true) ∧
      (∃ l1, get_entities_by_group m1 g = some l1 ∧ eid ∈ l1) ∧
      m1.groupedEntities g = m.groupedEntities g ++ [eid] ∧
      ∃ m2, add_group m1 eid g = some m2 ∧
        (∃ e2, findEntity m2.entities eid = some e2 ∧ has_group e2 g = some true) ∧
        m2.groupedEntities g = m1.groupedEntities g ++ [eid] ∧
        (m2.groupedEntities g).count eid =
          (m1.groupedEntities g).count eid + 1 := by
  have hstep1 := add_group_spec m eid e g hg hfind
  have hfind1 : findEntity (updateEntities m.entities eid
      (fun e0 => { e0 with group_bitset := fun j => if j = g then true else e.group_bitset j })) eid =
      some { e with group_bitset := fun j => if j = g then true else e.group_bitset j } :=
    findEntity_updateEntities m.entities eid _ e hfind
  refine ⟨_, hstep1, ⟨_, hfind1, ?_⟩, ⟨m.groupedEntities g ++ [eid], ?_, ?_⟩, ?_, ?_⟩
  · unfold has_group bitset_get
    rw [if_pos hg]
    simp
  · unfold get_entities_by_group
    rw [if_pos hg]
    simp
  · simp
  · show (if g = g then m.groupedEntities g ++ [eid] else m.groupedEntities g) =
      m.groupedEntities g ++ [eid]
    simp
  · have hstep2 := add_group_spec { entities := updateEntities m.entities eid (fun e0 => { e0 with group_bitset := fun j => if j = g then true else e.group_bitset j }), groupedEntities := fun j => if j = g then m.groupedEntities g ++ [eid] else m.groupedEntities j } eid { e with group_bitset := fun j => if j = g then true else e.group_bitset j } g hg hfind1
    refine ⟨_, hstep2, ⟨_, findEntity_updateEntities _ eid _ _ hfind1, ?_⟩, ?_, ?_⟩
    · unfold has_group bitset_get
      rw [if_pos hg]
      simp
    · simp
    · simp [List.count_append]

/-- Witness for C4: tagging the live entity 0 with group 7 twice. -/
theorem C4_add_group_immediate_duplicate_witness :
    ∃ m1, add_group m_demo 0 7 = some m1 ∧
      (∃ e1, findEntity m1.entities 0 = some e1 ∧ has_group e1 7 = some true) ∧
      (∃ l1, get_entities_by_group m1 7 = some l1 ∧ 0 ∈ l1) ∧
      m1.groupedEntities 7 = m_demo.groupedEntities 7 ++ [0] ∧
      ∃ m2, add_group m1 0 7 = some m2 ∧
        (∃ e2, findEntity m2.entities 0 = some e2 ∧ has_group e2 7 = some true) ∧
        m2.groupedEntities 7 = m1.groupedEntities 7 ++ [0] ∧
        (m2.groupedEntities 7).count 0 = (m1.groupedEntities 7).count 0 + 1 :=
  C4_add_group_immediate_duplicate m_demo 0 e_alive5 7 (by decide) (by rfl)

/-- C9: a successful add_component makes has_component true and every
subsequent get_component return the very instance just created; a second
add_component of the same type is rejected by the assert (none), and the
storage holds exactly one instance of that type. -/
theorem C9_add_component_contract (e : Entity) (tid : Nat) (cinst : Nat)
    (htid : tid < max_components) (hbit : e.component_bitset tid = false)
    (hnone : ∀ c ∈ e.components, c.1 ≠ tid) :
    ∃ e1, add_component e tid cinst = some e1 ∧
      has_component e1 tid = some true ∧
      get_component e1 tid = some cinst ∧
      (e1.components.filter (fun c => c.1 == tid)).length = 1 ∧
      (∀ cinst2, add_component e1 tid cinst2 = none) := by
  refine ⟨{ e with components := e.components ++ [(tid, cinst)], component_array := fun j => if j = tid then some cinst else e.component_array j, component_bitset := fun j => if j = tid then true else e.component_bitset j }, ?_, ?_, ?_, ?_, ?_⟩
  · simp [add_component, htid, hbit]
  · unfold has_component bitset_get
    rw [if_pos htid]
    simp
  · unfold get_component
    rw [if_pos htid]
    simp
  · have hnil : e.components.filter (fun c => c.1 == tid) = [] := by
      rw [List.filter_eq_nil_iff]
      intro c hc
      simpa using hnone c hc
    simp only [List.filter_append, hnil]
    simp
  · intro cinst2
    simp [add_component, htid]

/-- Witness for C9: attaching component type 0 (instance 7) to a fresh
entity. -/
theorem C9_add_component_contract_witness :
    ∃ e1, add_component Entity.new 0 7 = some e1 ∧
      has_component e1 0 = some true ∧
      get_component e1 0 = some 7 ∧
      (e1.components.filter (fun c => c.1 == 0)).length = 1 ∧
      (∀ cinst2, add_component e1 0 cinst2 = none) :=
  C9_add_component_contract Entity.new 0 7 (by decide) (by rfl)
    (by simp [Entity.new])
